import Mathlib

noncomputable section

/-!
Verification development for the av-metrics video-quality library
(PSNR-HVS, SSIM, MS-SSIM engines and their aggregation layer).

Modelling conventions:
* `f64` values are modelled as real numbers (`ℝ`); `log10` is `Real.logb 10`,
  `powf` is `Real.rpow`, `E.powf x` is `Real.exp x`.
* Machine integers (`i16`, `i32`, `i64`, `usize`) are modelled as `ℤ`/`ℕ`
  with explicit wraps where the program can overflow: `i16::cast_from` of a
  16-bit sample (`toI16`), and the `i32` DCT arithmetic of the PSNR-HVS
  engine — butterfly additions/subtractions, the fixed-point lifting
  multiplies, the coefficient squaring of the masking sum and the
  coefficient difference — which for 16-bit samples exceeds `i32` range and
  wraps in release builds (`wrap32`/`lift32`).  The `i64` SSIM moment
  arithmetic does not overflow for the engine's own parameters (kernel
  weights 256/1024, samples below 2 ^ 16) and is modelled without wrapping.
* Arithmetic right shift `>>` of an `i32`/`i64` is floor division by a power
  of two (`Int.fdiv`).
* A Rust `panic!`/unwrap-on-`None`, and a division `0.0 / 0.0` producing NaN,
  are modelled by `Option`-valued results (`none` = the call does not produce
  a numeric result).
-/

/-- The result record `{y, u, v, avg}` of real-valued scores
(src/av_metrics: `PlanarMetrics`). -/
structure PlanarMetrics where
  y : ℝ
  u : ℝ
  v : ℝ
  avg : ℝ

/-- Error type.  `inputMismatch` carries the human-readable reason string,
mirroring `MetricsError::InputMismatch { reason }`. -/
inductive MetricsError where
  | inputMismatch (reason : String)
deriving DecidableEq

/-- One colour plane: a rectangular sample grid.  `data i` is the sample at
flat index `i` of the row-major buffer (rows laid out with `stride`). -/
structure PlaneData where
  width : ℕ
  height : ℕ
  stride : ℕ
  data : ℕ → ℤ

/-- A frame: an ordered triple of planes (Y, U, V). -/
structure VFrame where
  py : PlaneData
  pu : PlaneData
  pv : PlaneData

/-- Modelled from the spec: the frame-pair validator `can_compare`
(`FrameCompare` lives in `av_metrics/src/video/mod.rs`, which is not part of
the provided sources).  Per spec §4.1 it checks identical plane dimensions
for every plane index and reports a distinguishable `InputMismatch` error
with a human-readable reason. -/
def can_compare (f1 f2 : VFrame) : Except MetricsError Unit :=
  if f1.py.width = f2.py.width ∧ f1.py.height = f2.py.height ∧
      f1.pu.width = f2.pu.width ∧ f1.pu.height = f2.pu.height ∧
      f1.pv.width = f2.pv.width ∧ f1.pv.height = f2.pv.height then
    .ok ()
  else
    .error (.inputMismatch "Plane dimensions do not match")

namespace PsnrHvs

/-- `log10_convert` from `psnr_hvs.rs`:
`10.0 * (-1.0 * (weight * score).log10())`. -/
def log10_convert (score weight : ℝ) : ℝ :=
  10 * (-1 * Real.logb 10 (weight * score))

/-- The `PlanarMetrics` built by `calculate_frame_psnr_hvs` from the
unweighted per-plane result of `process_frame` and the chroma weight. -/
def frameMetrics (result : PlanarMetrics) (cweight : ℝ) : PlanarMetrics :=
  { y := log10_convert result.y 1
    u := log10_convert result.u 1
    v := log10_convert result.v 1
    avg := log10_convert (result.y + cweight * (result.u + result.v))
      (1 + 2 * cweight) }

/-- `PsnrHvs::aggregate_frame_results`.  `cweight` is the optional chroma
weight stored in the `PsnrHvs` struct (`unwrap_or(1.0)`). -/
def aggregate_frame_results (cweight : Option ℝ) (metrics : List PlanarMetrics) :
    PlanarMetrics :=
  let cw := cweight.getD 1
  let sum_y := (metrics.map (fun m => m.y)).sum
  let sum_u := (metrics.map (fun m => m.u)).sum
  let sum_v := (metrics.map (fun m => m.v)).sum
  { y := log10_convert sum_y (1 / (metrics.length : ℝ))
    u := log10_convert sum_u (1 / (metrics.length : ℝ))
    v := log10_convert sum_v (1 / (metrics.length : ℝ))
    avg := log10_convert (sum_y + cw * (sum_u + sum_v))
      ((1 + 2 * cw) * 1 / (metrics.length : ℝ)) }

end PsnrHvs

namespace Ssim

/-- `log10_convert` from `ssim.rs`:
`10.0 * (weight.log10() - (weight - score).log10())` — algebraically distinct
from the PSNR-HVS form. -/
def log10_convert (score weight : ℝ) : ℝ :=
  10 * (Real.logb 10 weight - Real.logb 10 (weight - score))

/-- `Ssim::aggregate_frame_results` (`unwrap_or(1.0)` on the chroma weight). -/
def aggregate_frame_results (cweight : Option ℝ) (metrics : List PlanarMetrics) :
    PlanarMetrics :=
  let cw := cweight.getD 1
  let y_sum := (metrics.map (fun m => m.y)).sum
  let u_sum := (metrics.map (fun m => m.u)).sum
  let v_sum := (metrics.map (fun m => m.v)).sum
  { y := log10_convert y_sum (metrics.length : ℝ)
    u := log10_convert u_sum (metrics.length : ℝ)
    v := log10_convert v_sum (metrics.length : ℝ)
    avg := log10_convert (y_sum + cw * (u_sum + v_sum))
      ((1 + 2 * cw) * (metrics.length : ℝ)) }

end Ssim

namespace Ssim

/-- Per-window moment accumulator (`SsimMoments` in `ssim.rs`), `i64` fields
modelled as `ℤ`. -/
structure SsimMoments where
  mux : ℤ
  muy : ℤ
  x2 : ℤ
  xy : ℤ
  y2 : ℤ
  w : ℤ
deriving DecidableEq

/-- `SSIM_K1: f64 = 0.01 * 0.01`. -/
def SSIM_K1 : ℝ := 0.01 * 0.01

/-- `SSIM_K2: f64 = 0.03 * 0.03`. -/
def SSIM_K2 : ℝ := 0.03 * 0.03

/-- The horizontal convolution pass of `calculate_plane_ssim_internal` for
row `y`, column `x`: the moments written into `buf[x]`.  `saturating_sub` is
`ℕ` subtraction; `horiz_kernel[k]` is `hk.getD k 0` (in the source every `k`
in the loop range is in bounds). -/
def horizMoments (p1 p2 : ℕ → ℤ) (width : ℕ) (hk : List ℤ) (y x : ℕ) :
    SsimMoments :=
  let ho := hk.length / 2
  let kmin := ho - x
  let kmax := hk.length - (x + ho + 1 - width)
  { mux := ∑ k ∈ Finset.Ico kmin kmax, hk.getD k 0 * p1 (y * width + (x + k - ho))
    muy := ∑ k ∈ Finset.Ico kmin kmax, hk.getD k 0 * p2 (y * width + (x + k - ho))
    x2 := ∑ k ∈ Finset.Ico kmin kmax,
      hk.getD k 0 * p1 (y * width + (x + k - ho)) * p1 (y * width + (x + k - ho))
    xy := ∑ k ∈ Finset.Ico kmin kmax,
      hk.getD k 0 * p1 (y * width + (x + k - ho)) * p2 (y * width + (x + k - ho))
    y2 := ∑ k ∈ Finset.Ico kmin kmax,
      hk.getD k 0 * p2 (y * width + (x + k - ho)) * p2 (y * width + (x + k - ho))
    w := ∑ k ∈ Finset.Ico kmin kmax, hk.getD k 0 }

/-- The vertical pass of `calculate_plane_ssim_internal` at output position
`(y, x)` (emitted when `vert_offset ≤ y < height + vert_offset`).  The
source reads row `y + 1 + k - len` of the circular line buffer
`lines[.. & line_mask]`; the buffer holds the most recent
`line_size ≥ kernel length` horizontal rows, and every row the window needs
was written on an earlier iteration and not yet overwritten, so the circular
indexing resolves to direct row indexing. -/
def windowMoments (p1 p2 : ℕ → ℤ) (width height : ℕ) (vk hk : List ℤ)
    (y x : ℕ) : SsimMoments :=
  let len := vk.length
  let kmin := len - (y + 1)
  let kmax := len - (y + 1 - height)
  { mux := ∑ k ∈ Finset.Ico kmin kmax,
      vk.getD k 0 * (horizMoments p1 p2 width hk (y + 1 + k - len) x).mux
    muy := ∑ k ∈ Finset.Ico kmin kmax,
      vk.getD k 0 * (horizMoments p1 p2 width hk (y + 1 + k - len) x).muy
    x2 := ∑ k ∈ Finset.Ico kmin kmax,
      vk.getD k 0 * (horizMoments p1 p2 width hk (y + 1 + k - len) x).x2
    xy := ∑ k ∈ Finset.Ico kmin kmax,
      vk.getD k 0 * (horizMoments p1 p2 width hk (y + 1 + k - len) x).xy
    y2 := ∑ k ∈ Finset.Ico kmin kmax,
      vk.getD k 0 * (horizMoments p1 p2 width hk (y + 1 + k - len) x).y2
    w := ∑ k ∈ Finset.Ico kmin kmax,
      vk.getD k 0 * (horizMoments p1 p2 width hk (y + 1 + k - len) x).w }

/-- The contrast-structure term `cs_tmp` computed from a window's combined
moments and the maximum sample value. -/
def windowCs (m : SsimMoments) (sample_max : ℕ) : ℝ :=
  let w : ℝ := (m.w : ℝ)
  let c2 : ℝ := ((sample_max ^ 2 : ℕ) : ℝ) * SSIM_K2 * w ^ 2
  w * (c2 + 2 * ((m.xy : ℝ) * w - (m.mux : ℝ) * (m.muy : ℝ))) /
    ((m.x2 : ℝ) * w - (m.mux : ℝ) ^ 2 + (m.y2 : ℝ) * w - (m.muy : ℝ) ^ 2 + c2)

/-- The full per-window SSIM term added to the `ssim` accumulator:
`cs_tmp * (2.0 * mxy + c1) / (mx2 + my2 + c1)`. -/
def windowSsimTerm (m : SsimMoments) (sample_max : ℕ) : ℝ :=
  let w : ℝ := (m.w : ℝ)
  let c1 : ℝ := ((sample_max ^ 2 : ℕ) : ℝ) * SSIM_K1 * w ^ 2
  windowCs m sample_max *
    (2 * ((m.mux : ℝ) * (m.muy : ℝ)) + c1) /
    ((m.mux : ℝ) ^ 2 + (m.muy : ℝ) ^ 2 + c1)

/-- `calculate_plane_ssim_internal`: returns
`(ssim / ssimw, cs / ssimw)` where the three accumulators run over every
emitted window (`vert_offset ≤ y < height + vert_offset`, `x < width`). -/
def calculate_plane_ssim_internal (p1 p2 : ℕ → ℤ) (width height : ℕ)
    (sample_max : ℕ) (vk hk : List ℤ) : ℝ × ℝ :=
  let vo := vk.length / 2
  let ssim := ∑ y ∈ Finset.Ico vo (height + vo), ∑ x ∈ Finset.range width,
    windowSsimTerm (windowMoments p1 p2 width height vk hk y x) sample_max
  let cs := ∑ y ∈ Finset.Ico vo (height + vo), ∑ x ∈ Finset.range width,
    windowCs (windowMoments p1 p2 width height vk hk y x) sample_max
  let ssimw := ∑ y ∈ Finset.Ico vo (height + vo), ∑ x ∈ Finset.range width,
    ((windowMoments p1 p2 width height vk hk y x).w : ℝ)
  (ssim / ssimw, cs / ssimw)

/-- The truncated half-length `kernel_len` of `build_gaussian_kernel`:
`s = sqrt(0.5π)·sigma·(1/kernel_weight)`; when `s < 1.0` the raw length is
`(sigma * sqrt(-2 ln s)).floor() as usize` (`⌊·⌋₊`, which like the Rust
saturating cast maps non-positive junk to 0), clipped to `max_len - 1`. -/
def gaussKernelLen (sigma : ℝ) (max_len kernel_weight : ℕ) : ℕ :=
  let s := Real.sqrt (0.5 * Real.pi) * sigma * (1 / (kernel_weight : ℝ))
  let len := if 1 ≤ s then 0
    else ⌊sigma * Real.sqrt (-2 * Real.log s)⌋₊
  if max_len ≤ len then max_len - 1 else len

/-- One side coefficient of the Gaussian kernel:
`(kernel_weight * scale * E.powf(nhisigma2 * ci²) + 0.5) as i64`, with
`scale = 1/(sqrt(2π)·sigma)` and `nhisigma2 = -0.5/sigma²`; the cast
truncates a nonnegative value, i.e. `⌊·⌋`. -/
def gaussSide (sigma : ℝ) (kernel_weight : ℕ) (ci : ℕ) : ℤ :=
  ⌊(kernel_weight : ℝ) * (1 / (Real.sqrt (2 * Real.pi) * sigma)) *
    Real.exp (-0.5 / sigma ^ 2 * (ci : ℝ) ^ 2) + 0.5⌋

/-- The body of `build_gaussian_kernel` (everything after the `kernel_size`
computation).  The source fills `kernel[kernel_len - ci]` and
`kernel[kernel_len + ci]` with the same value for `ci in 1..=kernel_len` and
finally writes the centre coefficient `kernel_weight - (sum << 1)`; every
index of the `(kernel_len << 1) | 1`-element vector is written exactly once,
which the positional closed form below reproduces. -/
def build_gaussian_kernel_core (sigma : ℝ) (max_len kernel_weight : ℕ) :
    List ℤ :=
  let kernel_len := gaussKernelLen sigma max_len kernel_weight
  let sideSum := ∑ ci ∈ Finset.Icc 1 kernel_len, gaussSide sigma kernel_weight ci
  (List.range (2 * kernel_len + 1)).map fun i =>
    if i = kernel_len then (kernel_weight : ℤ) - 2 * sideSum
    else gaussSide sigma kernel_weight
      (if i < kernel_len then kernel_len - i else i - kernel_len)

/-- `build_gaussian_kernel`.  When `max_len = 0` the branch
`kernel_len = max_len - 1` underflows `usize` (the truncated length `len` is
always `≥ max_len` then), and `vec![0; kernel_size]` aborts with a capacity
overflow: no kernel is returned, modelled as `none`. -/
def build_gaussian_kernel (sigma : ℝ) (max_len kernel_weight : ℕ) :
    Option (List ℤ) :=
  if max_len = 0 then none
  else some (build_gaussian_kernel_core sigma max_len kernel_weight)

/-- `plane_to_vec`/slice indexing: a plane buffer as a total function (reads
out of range return 0; the source never performs them). -/
def listToPlane (l : List ℤ) : ℕ → ℤ := fun i => l.getD i 0

/-- `msssim_downscale`: each output sample is the 2×2 **sum** of input
samples, the second row/column index clamped to the last valid index.  The
source writes `output[j * output_width + i]` once per `(j, i)`; the flat
`List.range` rendering below reproduces the same vector. -/
def msssim_downscale (input : List ℤ) (input_width input_height : ℕ) :
    List ℤ :=
  let ow := input_width / 2
  let oh := input_height / 2
  (List.range (ow * oh)).map fun idx =>
    let j := idx / ow
    let i := idx % ow
    let j0 := 2 * j
    let j1 := min (j0 + 1) (input_height - 1)
    let i0 := 2 * i
    let i1 := min (i0 + 1) (input_width - 1)
    input.getD (j0 * input_width + i0) 0 + input.getD (j0 * input_width + i1) 0 +
      input.getD (j1 * input_width + i0) 0 + input.getD (j1 * input_width + i1) 0

/-- `MS_WEIGHT` from `calculate_plane_msssim`. -/
def MS_WEIGHT : Fin 5 → ℝ := ![0.0448, 0.2856, 0.3001, 0.2363, 0.1333]

/-- `calculate_plane_msssim`, the `for i in 1..5` loop unrolled.  The final
fold over `cs.iter().zip(MS_WEIGHT).take(4)` multiplies `cs[0..3]^weight`
into `1.0` and the whole product by `ssim[4]^MS_WEIGHT[4]`. -/
def calculate_plane_msssim (plane1 plane2 : List ℤ)
    (width height bit_depth : ℕ) : ℝ :=
  let kernel := build_gaussian_kernel_core 1.5 5 1024
  let sm0 := 2 ^ bit_depth - 1
  let r0 := calculate_plane_ssim_internal (listToPlane plane1)
    (listToPlane plane2) width height sm0 kernel kernel
  let p1a := msssim_downscale plane1 width height
  let p2a := msssim_downscale plane2 width height
  let r1 := calculate_plane_ssim_internal (listToPlane p1a) (listToPlane p2a)
    (width / 2) (height / 2) (sm0 * 4) kernel kernel
  let p1b := msssim_downscale p1a (width / 2) (height / 2)
  let p2b := msssim_downscale p2a (width / 2) (height / 2)
  let r2 := calculate_plane_ssim_internal (listToPlane p1b) (listToPlane p2b)
    (width / 2 / 2) (height / 2 / 2) (sm0 * 4 * 4) kernel kernel
  let p1c := msssim_downscale p1b (width / 2 / 2) (height / 2 / 2)
  let p2c := msssim_downscale p2b (width / 2 / 2) (height / 2 / 2)
  let r3 := calculate_plane_ssim_internal (listToPlane p1c) (listToPlane p2c)
    (width / 2 / 2 / 2) (height / 2 / 2 / 2) (sm0 * 4 * 4 * 4) kernel kernel
  let p1d := msssim_downscale p1c (width / 2 / 2 / 2) (height / 2 / 2 / 2)
  let p2d := msssim_downscale p2c (width / 2 / 2 / 2) (height / 2 / 2 / 2)
  let r4 := calculate_plane_ssim_internal (listToPlane p1d) (listToPlane p2d)
    (width / 2 / 2 / 2 / 2) (height / 2 / 2 / 2 / 2) (sm0 * 4 * 4 * 4 * 4)
    kernel kernel
  1 * r0.2 ^ MS_WEIGHT 0 * r1.2 ^ MS_WEIGHT 1 * r2.2 ^ MS_WEIGHT 2 *
    r3.2 ^ MS_WEIGHT 3 * r4.1 ^ MS_WEIGHT 4

end Ssim

namespace PsnrHvs

/-- `CSF_Y` (normalized inverse quantization matrix for the luma plane). -/
def CSF_Y : List (List ℝ) := [
  [1.6193873005, 2.2901594831, 2.08509755623, 1.48366094411, 1.00227514334, 0.678296995242, 0.466224900598, 0.3265091542],
  [2.2901594831, 1.94321815382, 2.04793073064, 1.68731108984, 1.2305666963, 0.868920337363, 0.61280991668, 0.436405793551],
  [2.08509755623, 2.04793073064, 1.34329019223, 1.09205635862, 0.875748795257, 0.670882927016, 0.501731932449, 0.372504254596],
  [1.48366094411, 1.68731108984, 1.09205635862, 0.772819797575, 0.605636379554, 0.48309405692, 0.380429446972, 0.295774038565],
  [1.00227514334, 1.2305666963, 0.875748795257, 0.605636379554, 0.448996256676, 0.352889268808, 0.283006984131, 0.226951348204],
  [0.678296995242, 0.868920337363, 0.670882927016, 0.48309405692, 0.352889268808, 0.27032073436, 0.215017739696, 0.17408067321],
  [0.466224900598, 0.61280991668, 0.501731932449, 0.380429446972, 0.283006984131, 0.215017739696, 0.168869545842, 0.136153931001],
  [0.3265091542, 0.436405793551, 0.372504254596, 0.295774038565, 0.226951348204, 0.17408067321, 0.136153931001, 0.109083846276]]

/-- `CSF_CB420` (first chroma plane). -/
def CSF_CB420 : List (List ℝ) := [
  [1.91113096927, 2.46074210438, 1.18284184739, 1.14982565193, 1.05017074788, 0.898018824055, 0.74725392039, 0.615105596242],
  [2.46074210438, 1.58529308355, 1.21363250036, 1.38190029285, 1.33100189972, 1.17428548929, 0.996404342439, 0.830890433625],
  [1.18284184739, 1.21363250036, 0.978712413627, 1.02624506078, 1.03145147362, 0.960060382087, 0.849823426169, 0.731221236837],
  [1.14982565193, 1.38190029285, 1.02624506078, 0.861317501629, 0.801821139099, 0.751437590932, 0.685398513368, 0.608694761374],
  [1.05017074788, 1.33100189972, 1.03145147362, 0.801821139099, 0.676555426187, 0.605503172737, 0.55002013668, 0.495804539034],
  [0.898018824055, 1.17428548929, 0.960060382087, 0.751437590932, 0.605503172737, 0.514674450957, 0.454353482512, 0.407050308965],
  [0.74725392039, 0.996404342439, 0.849823426169, 0.685398513368, 0.55002013668, 0.454353482512, 0.389234902883, 0.342353999733],
  [0.615105596242, 0.830890433625, 0.731221236837, 0.608694761374, 0.495804539034, 0.407050308965, 0.342353999733, 0.295530605237]]

/-- `CSF_CR420` (second chroma plane). -/
def CSF_CR420 : List (List ℝ) := [
  [2.03871978502, 2.62502345193, 1.26180942886, 1.11019789803, 1.01397751469, 0.867069376285, 0.721500455585, 0.593906509971],
  [2.62502345193, 1.69112867013, 1.17180569821, 1.3342742857, 1.28513006198, 1.13381474809, 0.962064122248, 0.802254508198],
  [1.26180942886, 1.17180569821, 0.944981930573, 0.990876405848, 0.995903384143, 0.926972725286, 0.820534991409, 0.706020324706],
  [1.11019789803, 1.3342742857, 0.990876405848, 0.831632933426, 0.77418706195, 0.725539939514, 0.661776842059, 0.587716619023],
  [1.01397751469, 1.28513006198, 0.995903384143, 0.77418706195, 0.653238524286, 0.584635025748, 0.531064164893, 0.478717061273],
  [0.867069376285, 1.13381474809, 0.926972725286, 0.725539939514, 0.584635025748, 0.496936637883, 0.438694579826, 0.393021669543],
  [0.721500455585, 0.962064122248, 0.820534991409, 0.661776842059, 0.531064164893, 0.438694579826, 0.375820256136, 0.330555063063],
  [0.593906509971, 0.802254508198, 0.706020324706, 0.587716619023, 0.478717061273, 0.393021669543, 0.330555063063, 0.285345396658]]

/-- The `match plane_idx` selecting a CSF matrix (`_ => unreachable!()`:
indices other than 0, 1, 2 never occur; mapped to the last arm). -/
def csfFor (plane_idx : ℕ) : List (List ℝ) :=
  match plane_idx with
  | 0 => CSF_Y
  | 1 => CSF_CB420
  | _ => CSF_CR420

/-- `CSF_MULTIPLIER`. -/
def CSF_MULTIPLIER : ℝ := 0.3885746225901003

/-- The CSF entry at `(i, j)`. -/
def csfVal (csf : List (List ℝ)) (i j : ℕ) : ℝ := (csf.getD i []).getD j 0

/-- The masking table `mask[x][y] = (csf[x][y] * CSF_MULTIPLIER).powi(2)`. -/
def maskVal (csf : List (List ℝ)) (i j : ℕ) : ℝ :=
  (csfVal csf i j * CSF_MULTIPLIER) ^ 2

/-- `i16::cast_from` of a sample: wraps modulo `2 ^ 16` into
`[-2 ^ 15, 2 ^ 15)`. -/
def toI16 (v : ℤ) : ℤ := (v + 2 ^ 15) % 2 ^ 16 - 2 ^ 15

/-- Arithmetic right shift of an `i32`/`i64` by `n`: floor division by
`2 ^ n`. -/
def sar (a : ℤ) (n : ℕ) : ℤ := Int.fdiv a (2 ^ n)

/-- Two's-complement wrap of an `i32` result into `[-2 ^ 31, 2 ^ 31)`:
Rust's release-mode overflow behaviour for `i32` addition, subtraction,
multiplication, squaring and `abs` (debug builds panic instead; the wrap is
what the shipped program computes). -/
def wrap32 (z : ℤ) : ℤ := (z + 2 ^ 31) % 2 ^ 32 - 2 ^ 31

/-- `(t * c + r) >> s` computed in `i32`: the multiplication and the
addition wrap, the shift is arithmetic. -/
def lift32 (t c r : ℤ) (s : ℕ) : ℤ := sar (wrap32 (wrap32 (t * c) + r)) s

/-- `od_dct_rshift(a, b) = ((a as u32 >> (32 - b)) as i32 + a) >> b`, the
strength-reduced rounding shift (only used with `b = 1`); the `u32`
reinterpretation of `a` is `a % 2 ^ 32` and the `i32` addition wraps. -/
def od_dct_rshift (a : ℤ) (b : ℕ) : ℤ :=
  sar (wrap32 (a % 2 ^ 32 / 2 ^ (32 - b) + a)) b

/-- `od_bin_fdct8`: Daala's fixed-point 8-point forward DCT butterfly.
The sequential mutations of `t[..]` become a chain of shadowing `let`s;
`x[k * DCT_STRIDE]` is the `k`-th input.  Every `i32` addition, subtraction
and lifting multiply-add-shift wraps (`wrap32`/`lift32`): for 16-bit
samples the intermediate products exceed `i32` range and the release build
wraps them. -/
def od_bin_fdct8 (x : Fin 8 → ℤ) : Fin 8 → ℤ :=
  let t0 := x 0
  let t4 := x 1
  let t2 := x 2
  let t6 := x 3
  let t7 := x 4
  let t3 := x 5
  let t5 := x 6
  let t1 := x 7
  let t1 := wrap32 (t0 - t1)
  let th1 := od_dct_rshift t1 1
  let t0 := wrap32 (t0 - th1)
  let t4 := wrap32 (t4 + t5)
  let th4 := od_dct_rshift t4 1
  let t5 := wrap32 (t5 - th4)
  let t3 := wrap32 (t2 - t3)
  let t2 := wrap32 (t2 - od_dct_rshift t3 1)
  let t6 := wrap32 (t6 + t7)
  let th6 := od_dct_rshift t6 1
  let t7 := wrap32 (th6 - t7)
  let t0 := wrap32 (t0 + th6)
  let t6 := wrap32 (t0 - t6)
  let t2 := wrap32 (th4 - t2)
  let t4 := wrap32 (t2 - t4)
  let t0 := wrap32 (t0 - lift32 t4 13573 16384 15)
  let t4 := wrap32 (t4 + lift32 t0 11585 8192 14)
  let t0 := wrap32 (t0 - lift32 t4 13573 16384 15)
  let t6 := wrap32 (t6 - lift32 t2 21895 16384 15)
  let t2 := wrap32 (t2 + lift32 t6 15137 8192 14)
  let t6 := wrap32 (t6 - lift32 t2 21895 16384 15)
  let t3 := wrap32 (t3 + lift32 t5 19195 16384 15)
  let t5 := wrap32 (t5 + lift32 t3 11585 8192 14)
  let t3 := wrap32 (t3 - lift32 t5 7489 4096 13)
  let t7 := wrap32 (od_dct_rshift t5 1 - t7)
  let t5 := wrap32 (t5 - t7)
  let t3 := wrap32 (th1 - t3)
  let t1 := wrap32 (t1 - t3)
  let t7 := wrap32 (t7 + lift32 t1 3227 16384 15)
  let t1 := wrap32 (t1 - lift32 t7 6393 16384 15)
  let t7 := wrap32 (t7 + lift32 t1 3227 16384 15)
  let t5 := wrap32 (t5 + lift32 t3 2485 4096 13)
  let t3 := wrap32 (t3 - lift32 t5 18205 16384 15)
  let t5 := wrap32 (t5 + lift32 t3 2485 4096 13)
  ![t0, t1, t2, t3, t4, t5, t6, t7]

/-- `od_bin_fdct8x8`: the separable 8×8 transform.  `d r c` is the sample at
row `r`, column `c` (`data[r * 8 + c]`); the first pass fills
`z[i][j] = fdct8(column i of data)[j]`, the second writes
`data[i][j] = fdct8(column i of z)[j]`. -/
def od_bin_fdct8x8 (d : Fin 8 → Fin 8 → ℤ) : Fin 8 → Fin 8 → ℤ :=
  let z : Fin 8 → Fin 8 → ℤ := fun i j => od_bin_fdct8 (fun k => d k i) j
  fun i j => od_bin_fdct8 (fun k => z k i) j

/-- The 8×8 block of `i16` samples with top-left corner `(x, y)`:
`p[i * 8 + j] = i16::cast_from(plane.data[(y + i) * stride + x + j])`. -/
def blockOf (p : ℕ → ℤ) (stride x y : ℕ) : Fin 8 → Fin 8 → ℤ :=
  fun i j => toI16 (p ((y + (i : ℕ)) * stride + x + (j : ℕ)))

/-- The quadrant index `sub = ((i & 12) >> 2) + ((j & 12) >> 1)`; for
`i, j < 8` this is `i / 4 + 2 * (j / 4)`. -/
def subIdx (i j : ℕ) : ℕ := i / 4 + 2 * (j / 4)

/-- The global block mean `p_gmean` (sum of the 64 samples over 64). -/
def blockGMean (b : Fin 8 → Fin 8 → ℤ) : ℝ :=
  (∑ i : Fin 8, ∑ j : Fin 8, ((b i j : ℤ) : ℝ)) / 64

/-- The quadrant mean `p_means[s]` (sum of the quadrant's 16 samples over
16). -/
def blockMeanQ (b : Fin 8 → Fin 8 → ℤ) (s : ℕ) : ℝ :=
  (∑ i : Fin 8, ∑ j : Fin 8,
    if subIdx i j = s then ((b i j : ℤ) : ℝ) else 0) / 16

/-- The global block variance `p_gvar` after the `64 / 63` correction. -/
def blockGVar (b : Fin 8 → Fin 8 → ℤ) : ℝ :=
  (∑ i : Fin 8, ∑ j : Fin 8, (((b i j : ℤ) : ℝ) - blockGMean b) ^ 2) *
    (64 / 63)

/-- The quadrant variance `p_vars[s]` after the `16 / 15` correction. -/
def blockVarQ (b : Fin 8 → Fin 8 → ℤ) (s : ℕ) : ℝ :=
  (∑ i : Fin 8, ∑ j : Fin 8,
    if subIdx i j = s then (((b i j : ℤ) : ℝ) - blockMeanQ b s) ^ 2 else 0) *
    (16 / 15)

/-- The guarded masking ratio: after `if p_gvar > 0.0 { p_gvar = sum / p_gvar }`
the variable holds the quadrant-variance ratio when the global variance is
positive, and the untouched global variance otherwise. -/
def blockVarQuot (b : Fin 8 → Fin 8 → ℤ) : ℝ :=
  if 0 < blockGVar b then
    (∑ s ∈ Finset.range 4, blockVarQ b s) / blockGVar b
  else blockGVar b

/-- The masking-energy sum over all DCT coefficients except the DC term
(`for j in (i == 0) as usize..8`): `dct.pow(2)` is squared in `i32` — it
wraps for coefficients of magnitude ≥ 46341 (reachable with 16-bit samples),
possibly going negative — then cast to `f64` and multiplied by the
squared-normalized CSF weight. -/
def maskSum (d : Fin 8 → Fin 8 → ℤ) (csf : List (List ℝ)) : ℝ :=
  ∑ i : Fin 8, ∑ j : Fin 8,
    if i = 0 ∧ j = 0 then 0
    else ((wrap32 (d i j ^ 2) : ℤ) : ℝ) * maskVal csf (i : ℕ) (j : ℕ)

/-- The reduced DCT-domain difference at position `(i, j)`: the `i32`
subtraction and its `abs` wrap, then the value is cast to `f64`.  The DC
term is exempt; every other coefficient is attenuated by
`err_mask = shared_mask / mask[i][j]` (zeroed when below it). -/
def errVal (d1 d2 : Fin 8 → Fin 8 → ℤ) (sharedMask : ℝ)
    (csf : List (List ℝ)) (i j : Fin 8) : ℝ :=
  let err : ℝ := ((wrap32 |wrap32 (d1 i j - d2 i j)| : ℤ) : ℝ)
  if i = 0 ∧ j = 0 then err
  else
    let em := sharedMask / maskVal csf (i : ℕ) (j : ℕ)
    if err < em then 0 else err - em

/-- The squared-error contribution of one 8×8 block pair: masking energies
of both blocks (`sqrt(masksum * var_ratio) / 32`), the larger taken as the
shared visibility threshold, then the sum of `(err * csf)²` over the 64
coefficient positions.

Caveat on the real-valued model: when a wrapped masking sum times the
variance ratio is negative (possible for 16-bit content), the program's
`f64::sqrt` returns NaN and poisons the whole plane result, while
`Real.sqrt` returns the junk value 0 here; theorems about exact outputs of
this function therefore carry a hypothesis confining them to nonnegative
wrapped coefficient squares, where model and program agree. -/
def blockResult (b1 b2 : Fin 8 → Fin 8 → ℤ) (csf : List (List ℝ)) : ℝ :=
  let d1 := od_bin_fdct8x8 b1
  let d2 := od_bin_fdct8x8 b2
  let m1 := Real.sqrt (maskSum d1 csf * blockVarQuot b1) / 32
  let m2 := Real.sqrt (maskSum d2 csf * blockVarQuot b2) / 32
  let m := max m1 m2
  ∑ i : Fin 8, ∑ j : Fin 8,
    (errVal d1 d2 m csf i j * csfVal csf (i : ℕ) (j : ℕ)) ^ 2

/-- The block top-left coordinates visited along one dimension:
`(0..(dim - STEP)).step_by(STEP)` with `STEP = 7`, i.e. the multiples of 7
strictly below `dim - 7`. -/
def blockStarts (d : ℕ) : List ℕ :=
  (List.range ((d - 7 + 6) / 7)).map (fun m => m * 7)

/-- `calculate_plane_psnr_hvs`.  For `width < 8` or `height < 8` no result
is produced: when a dimension is below 7 the `0..(dim - STEP)` range
underflows and the block loop eventually indexes out of bounds (a panic);
when a dimension is 7, or exactly one block row/column would fit in one
dimension but none in the other, no block is visited and
`result /= pixels` is `0.0 / 0.0 = NaN`.  Both are modelled as `none`.
Otherwise the sums run over `blockStarts` in each axis, 64 pixels are
counted per block, and the accumulated error is divided by the pixel count
and by `sample_max²` (`bit_depth ≥ 1` is assumed so that `sample_max > 0`). -/
def calculate_plane_psnr_hvs (p1 p2 : ℕ → ℤ) (width height stride : ℕ)
    (plane_idx bit_depth : ℕ) : Option ℝ :=
  if width < 8 ∨ height < 8 then none
  else
    let csf := csfFor plane_idx
    let total := ((blockStarts height).map fun y =>
      (((blockStarts width).map fun x =>
        blockResult (blockOf p1 stride x y) (blockOf p2 stride x y) csf).sum)).sum
    let pixels := 64 * (blockStarts height).length * (blockStarts width).length
    let sample_max := 2 ^ bit_depth - 1
    some (total / (pixels : ℝ) / ((sample_max : ℝ) ^ 2))

end PsnrHvs

namespace Ssim

/-- `calculate_plane_ssim`: converts both planes with `plane_to_vec` (an
identity on the flat buffer) and keeps the first component of the internal
result. -/
def calculate_plane_ssim (p1 p2 : PlaneData) (sample_max : ℕ)
    (vk hk : List ℤ) : ℝ :=
  (calculate_plane_ssim_internal p1.data p2.data p1.width p1.height
    sample_max vk hk).1

end Ssim

/-- The reason string of the bit-depth/storage-width guard shared by all
three `process_frame` implementations. -/
def bitDepthMismatchReason : String := "Bit depths does not match pixel width"

namespace PsnrHvs

/-- `PsnrHvs::process_frame` for a pixel type of `size_of::<T>() = sizeT`
bytes: the bit-depth/storage guard, then `can_compare`, then the three plane
computations (executed in a fork-join scope; each writes its own scalar).
`avg` is set to `0.0` (unused here).  The payload is `none` when a plane
computation produces no numeric result. -/
def process_frame (sizeT bit_depth : ℕ) (f1 f2 : VFrame) :
    Except MetricsError (Option PlanarMetrics) :=
  if (sizeT = 1 ∧ 8 < bit_depth) ∨ (sizeT = 2 ∧ bit_depth ≤ 8) then
    .error (.inputMismatch bitDepthMismatchReason)
  else
    match can_compare f1 f2 with
    | .error e => .error e
    | .ok _ =>
      let oy := calculate_plane_psnr_hvs f1.py.data f2.py.data f1.py.width
        f1.py.height f1.py.stride 0 bit_depth
      let ou := calculate_plane_psnr_hvs f1.pu.data f2.pu.data f1.pu.width
        f1.pu.height f1.pu.stride 1 bit_depth
      let ov := calculate_plane_psnr_hvs f1.pv.data f2.pv.data f1.pv.width
        f1.pv.height f1.pv.stride 2 bit_depth
      .ok (match oy, ou, ov with
        | some a, some b, some c => some ⟨a, b, c, 0⟩
        | _, _, _ => none)

end PsnrHvs

namespace Ssim

/-- `Ssim::process_frame`: the same guard and validation, then per-plane
Gaussian kernels (`KERNEL_WEIGHT = 1 << 8`, sigma `height * 1.5 / 256`,
maximum length `min(width, height)`) and the windowed SSIM computation.
(For an empty plane the kernel construction would panic; those frames are
outside the model, which returns junk values there.) -/
def process_frame (sizeT bit_depth : ℕ) (f1 f2 : VFrame) :
    Except MetricsError PlanarMetrics :=
  if (sizeT = 1 ∧ 8 < bit_depth) ∨ (sizeT = 2 ∧ bit_depth ≤ 8) then
    .error (.inputMismatch bitDepthMismatchReason)
  else
    match can_compare f1 f2 with
    | .error e => .error e
    | .ok _ =>
      let sample_max := 2 ^ bit_depth - 1
      let y_kernel := build_gaussian_kernel_core ((f1.py.height : ℝ) * 1.5 / 256)
        (min f1.py.width f1.py.height) 256
      let u_kernel := build_gaussian_kernel_core ((f1.pu.height : ℝ) * 1.5 / 256)
        (min f1.pu.width f1.pu.height) 256
      let v_kernel := build_gaussian_kernel_core ((f1.pv.height : ℝ) * 1.5 / 256)
        (min f1.pv.width f1.pv.height) 256
      .ok
        { y := calculate_plane_ssim f1.py f2.py sample_max y_kernel y_kernel
          u := calculate_plane_ssim f1.pu f2.pu sample_max u_kernel u_kernel
          v := calculate_plane_ssim f1.pv f2.pv sample_max v_kernel v_kernel
          avg := 0 }

end Ssim

namespace MsSsim

/-- `plane_to_vec` as a list: the flat sample buffer (length
`stride * height`). -/
def planeVec (p : PlaneData) : List ℤ :=
  (List.range (p.stride * p.height)).map p.data

/-- `MsSsim::process_frame`: guard, validation, then the multiscale SSIM of
each plane pair. -/
def process_frame (sizeT bit_depth : ℕ) (f1 f2 : VFrame) :
    Except MetricsError PlanarMetrics :=
  if (sizeT = 1 ∧ 8 < bit_depth) ∨ (sizeT = 2 ∧ bit_depth ≤ 8) then
    .error (.inputMismatch bitDepthMismatchReason)
  else
    match can_compare f1 f2 with
    | .error e => .error e
    | .ok _ =>
      .ok
        { y := Ssim.calculate_plane_msssim (planeVec f1.py) (planeVec f2.py)
            f1.py.width f1.py.height bit_depth
          u := Ssim.calculate_plane_msssim (planeVec f1.pu) (planeVec f2.pu)
            f1.pu.width f1.pu.height bit_depth
          v := Ssim.calculate_plane_msssim (planeVec f1.pv) (planeVec f2.pv)
            f1.pv.width f1.pv.height bit_depth
          avg := 0 }

end MsSsim

namespace MsSsim

/-- `MsSsim::aggregate_frame_results`.  The source calls
`self.cweight.unwrap()`: with `cweight = None` it panics, modelled as
`none`. -/
def aggregate_frame_results (cweight : Option ℝ) (metrics : List PlanarMetrics) :
    Option PlanarMetrics :=
  match cweight with
  | none => none
  | some cw =>
    let y_sum := (metrics.map (fun m => m.y)).sum
    let u_sum := (metrics.map (fun m => m.u)).sum
    let v_sum := (metrics.map (fun m => m.v)).sum
    some
      { y := Ssim.log10_convert y_sum (metrics.length : ℝ)
        u := Ssim.log10_convert u_sum (metrics.length : ℝ)
        v := Ssim.log10_convert v_sum (metrics.length : ℝ)
        avg := Ssim.log10_convert (y_sum + cw * (u_sum + v_sum))
          ((1 + 2 * cw) * (metrics.length : ℝ)) }

end MsSsim

/-! ### Helper lemmas -/

/-- Summing a constant-zero map gives zero. -/
theorem list_sum_map_zero {α : Type} (l : List α) :
    (l.map fun _ => (0 : ℝ)).sum = 0 := by
  induction l with
  | nil => simp
  | cons a t ih => simp [ih]

/-- The `i32` wrap of zero is zero. -/
theorem wrap32_zero : PsnrHvs.wrap32 0 = 0 := by decide

/-- A mapped `List.range` read back with `getD`. -/
theorem getD_range_map (f : ℕ → ℤ) (n i : ℕ) (hi : i < n) :
    ((List.range n).map f).getD i 0 = f i := by
  rw [List.getD_eq_getElem?_getD, List.getElem?_map, List.getElem?_range hi]
  rfl

/-- List sum of a mapped `range` as a `Finset` sum. -/
theorem sum_range_map (f : ℕ → ℤ) (n : ℕ) :
    ((List.range n).map f).sum = ∑ i ∈ Finset.range n, f i := by
  induction n with
  | zero => simp
  | succ m ih =>
    rw [List.range_succ, List.map_append, List.sum_append,
      Finset.sum_range_succ, ih]
    simp

/-! ### Claim theorems -/

/-- C9: PSNR-HVS (and SSIM) video aggregation combines the per-frame
accumulators by commutative summation before log conversion, so any
permutation of a non-empty per-frame result sequence yields the same
video-level `PlanarMetrics`. -/
theorem spec_C9 (cw : Option ℝ) (l1 l2 : List PlanarMetrics) (_hne : l1 ≠ [])
    (hp : l1.Perm l2) :
    PsnrHvs.aggregate_frame_results cw l1 = PsnrHvs.aggregate_frame_results cw l2 ∧
    Ssim.aggregate_frame_results cw l1 = Ssim.aggregate_frame_results cw l2 := by
  have hy := (hp.map fun m => m.y).sum_eq
  have hu := (hp.map fun m => m.u).sum_eq
  have hv := (hp.map fun m => m.v).sum_eq
  have hl := hp.length_eq
  constructor <;>
    simp [PsnrHvs.aggregate_frame_results, Ssim.aggregate_frame_results,
      hy, hu, hv, hl]

/-- Witness for C9 at a concrete two-frame swap. -/
theorem spec_C9_witness :
    PsnrHvs.aggregate_frame_results none [⟨1, 2, 3, 0⟩, ⟨4, 5, 6, 0⟩] =
      PsnrHvs.aggregate_frame_results none [⟨4, 5, 6, 0⟩, ⟨1, 2, 3, 0⟩] ∧
    Ssim.aggregate_frame_results none [⟨1, 2, 3, 0⟩, ⟨4, 5, 6, 0⟩] =
      Ssim.aggregate_frame_results none [⟨4, 5, 6, 0⟩, ⟨1, 2, 3, 0⟩] :=
  spec_C9 none _ _ (by simp) (List.Perm.swap _ _ _)

/-- C10: with no chroma weight supplied, `MsSsim::aggregate_frame_results`
panics (unwrap on `None`, modelled as `none`) while the PSNR-HVS and SSIM
aggregators default the weight to `1.0` and return a result; with a supplied
weight the MS-SSIM aggregator returns its result. -/
theorem spec_C10 :
    (∀ ms, MsSsim.aggregate_frame_results none ms = none) ∧
    (∀ (cw : ℝ) ms, MsSsim.aggregate_frame_results (some cw) ms =
      some
        { y := Ssim.log10_convert ((ms.map fun m => m.y).sum) (ms.length : ℝ)
          u := Ssim.log10_convert ((ms.map fun m => m.u).sum) (ms.length : ℝ)
          v := Ssim.log10_convert ((ms.map fun m => m.v).sum) (ms.length : ℝ)
          avg := Ssim.log10_convert
            ((ms.map fun m => m.y).sum +
              cw * ((ms.map fun m => m.u).sum + (ms.map fun m => m.v).sum))
            ((1 + 2 * cw) * (ms.length : ℝ)) }) ∧
    (∀ ms, PsnrHvs.aggregate_frame_results none ms =
      PsnrHvs.aggregate_frame_results (some 1) ms) ∧
    (∀ ms, Ssim.aggregate_frame_results none ms =
      Ssim.aggregate_frame_results (some 1) ms) :=
  ⟨fun _ => rfl, fun _ _ => rfl, fun _ => rfl, fun _ => rfl⟩

/-- C4: for each of PSNR-HVS, SSIM and MS-SSIM, `process_frame` returns the
bit-depth `InputMismatch` error (before any metric arithmetic — the guard is
the first statement of each implementation) exactly when samples are stored
in 8-bit cells with bit depth > 8 or in 16-bit cells with bit depth ≤ 8, and
never raises this error otherwise. -/
theorem spec_C4 (sizeT bit_depth : ℕ) (f1 f2 : VFrame) :
    ((PsnrHvs.process_frame sizeT bit_depth f1 f2 =
        .error (.inputMismatch bitDepthMismatchReason)) ↔
      ((sizeT = 1 ∧ 8 < bit_depth) ∨ (sizeT = 2 ∧ bit_depth ≤ 8))) ∧
    ((Ssim.process_frame sizeT bit_depth f1 f2 =
        .error (.inputMismatch bitDepthMismatchReason)) ↔
      ((sizeT = 1 ∧ 8 < bit_depth) ∨ (sizeT = 2 ∧ bit_depth ≤ 8))) ∧
    ((MsSsim.process_frame sizeT bit_depth f1 f2 =
        .error (.inputMismatch bitDepthMismatchReason)) ↔
      ((sizeT = 1 ∧ 8 < bit_depth) ∨ (sizeT = 2 ∧ bit_depth ≤ 8))) := by
  by_cases hg : (sizeT = 1 ∧ 8 < bit_depth) ∨ (sizeT = 2 ∧ bit_depth ≤ 8)
  · refine ⟨?_, ?_, ?_⟩ <;>
      simp [PsnrHvs.process_frame, Ssim.process_frame, MsSsim.process_frame, hg]
  · by_cases hd : f1.py.width = f2.py.width ∧ f1.py.height = f2.py.height ∧
        f1.pu.width = f2.pu.width ∧ f1.pu.height = f2.pu.height ∧
        f1.pv.width = f2.pv.width ∧ f1.pv.height = f2.pv.height
    · refine ⟨?_, ?_, ?_⟩ <;>
        simp [PsnrHvs.process_frame, Ssim.process_frame, MsSsim.process_frame,
          can_compare, hg, hd]
    · refine ⟨?_, ?_, ?_⟩ <;>
        simp [PsnrHvs.process_frame, Ssim.process_frame, MsSsim.process_frame,
          can_compare, hg, hd, bitDepthMismatchReason]

/-- C6: the per-window SSIM computation uses
`c1 = maxval² · 0.0001 · W²`, `c2 = maxval² · 0.0009 · W²`, the
contrast-structure term
`cs = W·(c2 + 2·(Σxy·W − Σx·Σy)) / (Σx²·W − (Σx)² + Σy²·W − (Σy)² + c2)`,
the full term `cs·(2·Σx·Σy + c1)/((Σx)² + (Σy)² + c1)`, and the plane score
is the weighted mean of the windowed terms over the total window weight, the
cs weighted mean returned alongside. -/
theorem spec_C6 :
    (∀ (m : Ssim.SsimMoments) (maxval : ℕ),
      Ssim.windowCs m maxval =
        (m.w : ℝ) * ((maxval : ℝ) ^ 2 * 0.0009 * (m.w : ℝ) ^ 2 +
            2 * ((m.xy : ℝ) * (m.w : ℝ) - (m.mux : ℝ) * (m.muy : ℝ))) /
          ((m.x2 : ℝ) * (m.w : ℝ) - (m.mux : ℝ) ^ 2 + (m.y2 : ℝ) * (m.w : ℝ) -
            (m.muy : ℝ) ^ 2 + (maxval : ℝ) ^ 2 * 0.0009 * (m.w : ℝ) ^ 2)) ∧
    (∀ (m : Ssim.SsimMoments) (maxval : ℕ),
      Ssim.windowSsimTerm m maxval =
        Ssim.windowCs m maxval *
          (2 * (m.mux : ℝ) * (m.muy : ℝ) +
            (maxval : ℝ) ^ 2 * 0.0001 * (m.w : ℝ) ^ 2) /
          ((m.mux : ℝ) ^ 2 + (m.muy : ℝ) ^ 2 +
            (maxval : ℝ) ^ 2 * 0.0001 * (m.w : ℝ) ^ 2)) ∧
    (∀ (p1 p2 : ℕ → ℤ) (width height maxval : ℕ) (vk hk : List ℤ),
      Ssim.calculate_plane_ssim_internal p1 p2 width height maxval vk hk =
        ((∑ y ∈ Finset.Ico (vk.length / 2) (height + vk.length / 2),
            ∑ x ∈ Finset.range width,
            Ssim.windowSsimTerm
              (Ssim.windowMoments p1 p2 width height vk hk y x) maxval) /
          (∑ y ∈ Finset.Ico (vk.length / 2) (height + vk.length / 2),
            ∑ x ∈ Finset.range width,
            ((Ssim.windowMoments p1 p2 width height vk hk y x).w : ℝ)),
         (∑ y ∈ Finset.Ico (vk.length / 2) (height + vk.length / 2),
            ∑ x ∈ Finset.range width,
            Ssim.windowCs
              (Ssim.windowMoments p1 p2 width height vk hk y x) maxval) /
          (∑ y ∈ Finset.Ico (vk.length / 2) (height + vk.length / 2),
            ∑ x ∈ Finset.range width,
            ((Ssim.windowMoments p1 p2 width height vk hk y x).w : ℝ)))) := by
  refine ⟨?_, ?_, ?_⟩
  · intro m maxval
    simp only [Ssim.windowCs, Ssim.SSIM_K2]
    push_cast
    ring_nf
  · intro m maxval
    simp only [Ssim.windowSsimTerm, Ssim.SSIM_K1]
    push_cast
    ring_nf
  · intro p1 p2 width height maxval vk hk
    rfl

/-- C1: evaluation of the code at the failing input.  With unweighted
channel scores `y = u = v = 0.01` and chroma weight `cw = 1`,
`calculate_frame_psnr_hvs` passes `1 + 2·cw = 3` as the `log10_convert`
weight, so the cross-channel average is `10·(−log10(3 · 0.03)) =
10·(−log10 0.09)`; the claimed form with weight `1/(1+2·cw)` is
`10·(−log10((1/3) · 0.03)) = 10·(−log10 0.01)`, a different number (the
same multiplication appears in the video-level aggregation weight
`(1 + 2·cw)·1/N`). -/
theorem spec_C1 :
    (PsnrHvs.frameMetrics ⟨0.01, 0.01, 0.01, 0⟩ 1).avg =
      10 * (-1 * Real.logb 10 0.09) ∧
    (PsnrHvs.aggregate_frame_results (some 1) [⟨0.03, 0, 0, 0⟩]).avg =
      10 * (-1 * Real.logb 10 0.09) ∧
    10 * (-1 * Real.logb 10 0.09) ≠
      10 * (-1 * Real.logb 10 ((1 / (1 + 2 * 1)) * (0.01 + 1 * (0.01 + 0.01)))) := by
  refine ⟨?_, ?_, ?_⟩
  · show PsnrHvs.log10_convert (0.01 + 1 * (0.01 + 0.01)) (1 + 2 * 1) =
      10 * (-1 * Real.logb 10 0.09)
    rw [PsnrHvs.log10_convert]
    norm_num
  · simp only [PsnrHvs.aggregate_frame_results, PsnrHvs.log10_convert,
      List.map_cons, List.map_nil, List.sum_cons, List.sum_nil,
      List.length_cons, List.length_nil, Option.getD_some]
    norm_num
  · have harg : (1 / (1 + 2 * 1) : ℝ) * (0.01 + 1 * (0.01 + 0.01)) = 0.01 := by
      norm_num
    rw [harg]
    have hlt : Real.logb 10 0.01 < Real.logb 10 0.09 :=
      Real.logb_lt_logb (by norm_num) (by norm_num) (by norm_num)
    intro h
    have : Real.logb 10 0.09 = Real.logb 10 0.01 := by linarith
    linarith

/-- The sum of a kernel-shaped list: side coefficients mirrored around a
centre that absorbs `kernel_weight - 2 * (sum of one side)`. -/
theorem kernel_shape_sum (side : ℕ → ℤ) (kw : ℤ) (n : ℕ) :
    ((List.range (2 * n + 1)).map fun i =>
      if i = n then kw - 2 * (∑ ci ∈ Finset.Icc 1 n, side ci)
      else side (if i < n then n - i else i - n)).sum = kw := by
  rw [sum_range_map]
  have hS : (∑ ci ∈ Finset.Icc 1 n, side ci) =
      ∑ i ∈ Finset.range n, side (i + 1) := by
    have hn : n + 1 - 1 = n := by omega
    rw [← Nat.Ico_succ_right, Finset.sum_Ico_eq_sum_range, hn]
    exact Finset.sum_congr rfl fun i _ => by rw [Nat.add_comm]
  rw [Finset.range_eq_Ico,
    ← Finset.sum_Ico_consecutive _ (Nat.zero_le n) (by omega : n ≤ 2 * n + 1),
    Finset.sum_eq_sum_Ico_succ_bot (by omega : n < 2 * n + 1)]
  have hleft : (∑ i ∈ Finset.Ico 0 n,
      if i = n then kw - 2 * (∑ ci ∈ Finset.Icc 1 n, side ci)
      else side (if i < n then n - i else i - n)) =
      ∑ i ∈ Finset.range n, side (i + 1) := by
    rw [← Finset.range_eq_Ico,
      ← Finset.sum_range_reflect (fun j => side (j + 1)) n]
    refine Finset.sum_congr rfl fun i hi => ?_
    rw [Finset.mem_range] at hi
    rw [if_neg (by omega), if_pos hi]
    congr 1
    omega
  have hright : (∑ i ∈ Finset.Ico (n + 1) (2 * n + 1),
      if i = n then kw - 2 * (∑ ci ∈ Finset.Icc 1 n, side ci)
      else side (if i < n then n - i else i - n)) =
      ∑ i ∈ Finset.range n, side (i + 1) := by
    rw [Finset.sum_Ico_eq_sum_range]
    have hn : 2 * n + 1 - (n + 1) = n := by omega
    rw [hn]
    refine Finset.sum_congr rfl fun i hi => ?_
    rw [Finset.mem_range] at hi
    rw [if_neg (by omega), if_neg (by omega)]
    congr 1
    omega
  rw [hleft, hright, if_pos rfl, hS]
  ring

/-- A kernel-shaped list is symmetric. -/
theorem kernel_shape_symm (side : ℕ → ℤ) (c : ℤ) (n i : ℕ)
    (hi : i < 2 * n + 1) :
    ((List.range (2 * n + 1)).map fun j =>
      if j = n then c else side (if j < n then n - j else j - n)).getD i 0 =
    ((List.range (2 * n + 1)).map fun j =>
      if j = n then c else side (if j < n then n - j else j - n)).getD
        (2 * n - i) 0 := by
  rw [getD_range_map _ _ _ hi, getD_range_map _ _ _ (by omega)]
  rcases Nat.lt_trichotomy i n with h | h | h
  · rw [if_neg (by omega), if_pos h, if_neg (by omega), if_neg (by omega)]
    congr 1
    omega
  · rw [if_pos h, if_pos (by omega)]
  · rw [if_neg (by omega), if_neg (by omega), if_neg (by omega),
      if_pos (by omega)]
    congr 1
    omega

/-- C3 counterexample: with `max_len = 0` the computed truncation length is
always at least `max_len`, the branch `kernel_len = max_len - 1` underflows
and the kernel allocation aborts — no kernel is returned at all, so no
returned kernel sums to `kernel_weight`. -/
theorem spec_C3_cex :
    ¬ ∃ k, Ssim.build_gaussian_kernel 1.5 0 256 = some k ∧
      k.sum = (256 : ℤ) := by
  simp [Ssim.build_gaussian_kernel]

/-- C3 (amended to `max_len ≥ 1`): for every sigma, every positive maximum
length and every kernel weight, `build_gaussian_kernel` returns a kernel
that is symmetric and sums exactly to `kernel_weight`, the centre
coefficient absorbing the residual rounding error. -/
theorem spec_C3 (sigma : ℝ) (max_len kernel_weight : ℕ)
    (hml : 1 ≤ max_len) :
    ∃ k, Ssim.build_gaussian_kernel sigma max_len kernel_weight = some k ∧
      k.sum = (kernel_weight : ℤ) ∧
      ∀ i, i < k.length → k.getD i 0 = k.getD (k.length - 1 - i) 0 := by
  refine ⟨Ssim.build_gaussian_kernel_core sigma max_len kernel_weight,
    ?_, ?_, ?_⟩
  · rw [Ssim.build_gaussian_kernel, if_neg (by omega)]
  · exact kernel_shape_sum (Ssim.gaussSide sigma kernel_weight)
      (kernel_weight : ℤ) (Ssim.gaussKernelLen sigma max_len kernel_weight)
  · intro i hi
    rw [Ssim.build_gaussian_kernel_core] at hi ⊢
    simp only [List.length_map, List.length_range] at hi ⊢
    have h2 : 2 * Ssim.gaussKernelLen sigma max_len kernel_weight + 1 - 1 - i =
        2 * Ssim.gaussKernelLen sigma max_len kernel_weight - i := by omega
    rw [h2]
    exact kernel_shape_symm (Ssim.gaussSide sigma kernel_weight) _ _ i hi

/-- Witness for C3 at the kernel the SSIM engine actually builds. -/
theorem spec_C3_witness :
    ∃ k, Ssim.build_gaussian_kernel 1.5 5 256 = some k ∧
      k.sum = (256 : ℤ) ∧
      ∀ i, i < k.length → k.getD i 0 = k.getD (k.length - 1 - i) 0 :=
  spec_C3 1.5 5 256 (by norm_num)

/-- C7: along each axis, `calculate_plane_psnr_hvs` visits exactly the 8×8
blocks whose top-left coordinate is a multiple of 7 in `[0, dim − 8]`
(blocks overlap by one row/column), the plane computation sums over exactly
these block origins, and a sample in a trailing partial row/column (present
when `dim − 8` is not a multiple of 7) is covered by some block exactly when
its coordinate is below `7·⌊(dim − 8)/7⌋ + 8`. -/
theorem spec_C7 (d : ℕ) (hd : 8 ≤ d) :
    (∀ x, x ∈ PsnrHvs.blockStarts d ↔ 7 ∣ x ∧ x + 8 ≤ d) ∧
    (∀ c, c < d →
      ((∃ bx ∈ PsnrHvs.blockStarts d, bx ≤ c ∧ c < bx + 8) ↔
        c < 7 * ((d - 8) / 7) + 8)) ∧
    (∀ (p1 p2 : ℕ → ℤ) (w h stride plane_idx bit_depth : ℕ),
      8 ≤ w → 8 ≤ h →
      PsnrHvs.calculate_plane_psnr_hvs p1 p2 w h stride plane_idx bit_depth =
        some (((PsnrHvs.blockStarts h).map fun y =>
            ((PsnrHvs.blockStarts w).map fun x =>
              PsnrHvs.blockResult (PsnrHvs.blockOf p1 stride x y)
                (PsnrHvs.blockOf p2 stride x y)
                (PsnrHvs.csfFor plane_idx)).sum).sum /
          ((64 * (PsnrHvs.blockStarts h).length *
            (PsnrHvs.blockStarts w).length : ℕ) : ℝ) /
          (((2 ^ bit_depth - 1 : ℕ) : ℝ) ^ 2))) := by
  refine ⟨?_, ?_, ?_⟩
  · intro x
    simp only [PsnrHvs.blockStarts, List.mem_map, List.mem_range]
    constructor
    · rintro ⟨m, hm, rfl⟩
      exact ⟨⟨m, by ring⟩, by omega⟩
    · rintro ⟨⟨m, rfl⟩, h8⟩
      exact ⟨m, by omega, by ring⟩
  · intro c _
    simp only [PsnrHvs.blockStarts, List.mem_map, List.mem_range]
    constructor
    · rintro ⟨bx, ⟨m, hm, rfl⟩, h1, h2⟩
      omega
    · intro h
      exact ⟨min (c / 7) ((d - 8) / 7) * 7,
        ⟨min (c / 7) ((d - 8) / 7), by omega, rfl⟩, by omega, by omega⟩
  · intro p1 p2 w h stride plane_idx bit_depth hw hh
    simp only [PsnrHvs.calculate_plane_psnr_hvs]
    rw [if_neg (by omega)]
    push_cast [Nat.one_le_two_pow]
    ring_nf

/-- Witness for C7 at a 23-sample dimension (`23 − 8 = 15` is not a multiple
of 7: origins are 0, 7, 14 and column 22 is uncovered). -/
theorem spec_C7_witness :
    (14 ∈ PsnrHvs.blockStarts 23 ↔ 7 ∣ 14 ∧ 14 + 8 ≤ 23) ∧
    ((∃ bx ∈ PsnrHvs.blockStarts 23, bx ≤ 22 ∧ 22 < bx + 8) ↔
      22 < 7 * ((23 - 8) / 7) + 8) :=
  ⟨(spec_C7 23 (by norm_num)).1 14,
    (spec_C7 23 (by norm_num)).2.1 22 (by norm_num)⟩

/-- C8: the global block variance is nonnegative; the masking-ratio division
happens only under the strict-positivity guard, a zero-variance (flat) block
yields masking ratio 0 and no error or division by zero. -/
theorem spec_C8 (b : Fin 8 → Fin 8 → ℤ) :
    0 ≤ PsnrHvs.blockGVar b ∧
    (PsnrHvs.blockGVar b = 0 → PsnrHvs.blockVarQuot b = 0) ∧
    (0 < PsnrHvs.blockGVar b →
      PsnrHvs.blockVarQuot b =
        (∑ s ∈ Finset.range 4, PsnrHvs.blockVarQ b s) / PsnrHvs.blockGVar b) := by
  have hnn : 0 ≤ PsnrHvs.blockGVar b := by
    apply mul_nonneg
    · apply Finset.sum_nonneg
      intro i _
      apply Finset.sum_nonneg
      intro j _
      positivity
    · norm_num
  refine ⟨hnn, ?_, ?_⟩
  · intro h0
    rw [PsnrHvs.blockVarQuot, if_neg (by rw [h0]; exact lt_irrefl 0), h0]
  · intro hpos
    rw [PsnrHvs.blockVarQuot, if_pos hpos]

/-- Witness for C8 at the flat all-zero block. -/
theorem spec_C8_witness :
    0 ≤ PsnrHvs.blockGVar (fun _ _ => 0) ∧
    PsnrHvs.blockVarQuot (fun _ _ => 0) = 0 :=
  ⟨(spec_C8 _).1,
    (spec_C8 _).2.1 (by simp [PsnrHvs.blockGVar, PsnrHvs.blockGMean])⟩

/-- The masking table entries are nonnegative (they are squares). -/
theorem maskVal_nonneg (csf : List (List ℝ)) (i j : ℕ) :
    0 ≤ PsnrHvs.maskVal csf i j := by
  rw [PsnrHvs.maskVal]
  positivity

/-- The guarded masking ratio is always nonnegative (quadrant variances are
sums of squares; the untouched global variance likewise). -/
theorem blockVarQuot_nonneg (b : Fin 8 → Fin 8 → ℤ) :
    0 ≤ PsnrHvs.blockVarQuot b := by
  have hg : 0 ≤ PsnrHvs.blockGVar b := by
    apply mul_nonneg
    · apply Finset.sum_nonneg
      intro i _
      apply Finset.sum_nonneg
      intro j _
      positivity
    · norm_num
  rw [PsnrHvs.blockVarQuot]
  split_ifs with h
  · apply div_nonneg _ (le_of_lt h)
    apply Finset.sum_nonneg
    intro s _
    apply mul_nonneg
    · apply Finset.sum_nonneg
      intro i _
      apply Finset.sum_nonneg
      intro j _
      split_ifs <;> positivity
    · norm_num
  · exact hg

/-- When every wrapped coefficient square of a block is nonnegative (no
`i32` wrap went negative), the block's masking sum is nonnegative. -/
theorem maskSum_nonneg (d : Fin 8 → Fin 8 → ℤ) (csf : List (List ℝ))
    (h : ∀ i j : Fin 8, 0 ≤ PsnrHvs.wrap32 (d i j ^ 2)) :
    0 ≤ PsnrHvs.maskSum d csf := by
  rw [PsnrHvs.maskSum]
  apply Finset.sum_nonneg
  intro i _
  apply Finset.sum_nonneg
  intro j _
  split_ifs
  · exact le_refl 0
  · exact mul_nonneg (by exact_mod_cast h i j) (maskVal_nonneg _ _ _)

/-- Comparing a DCT block against itself leaves every reduced coefficient
difference at zero (the attenuation threshold is nonnegative). -/
theorem errVal_self (d : Fin 8 → Fin 8 → ℤ) (m : ℝ) (hm : 0 ≤ m)
    (csf : List (List ℝ)) (i j : Fin 8) :
    PsnrHvs.errVal d d m csf i j = 0 := by
  rw [PsnrHvs.errVal]
  simp only [sub_self, wrap32_zero, abs_zero, Int.cast_zero]
  split_ifs with h1 h2
  · rfl
  · rfl
  · have hem : 0 ≤ m / PsnrHvs.maskVal csf (i : ℕ) (j : ℕ) :=
      div_nonneg hm (maskVal_nonneg _ _ _)
    push_neg at h2
    linarith

/-- An 8×8 block compared against itself contributes zero squared error. -/
theorem blockResult_self (b : Fin 8 → Fin 8 → ℤ) (csf : List (List ℝ)) :
    PsnrHvs.blockResult b b csf = 0 := by
  rw [PsnrHvs.blockResult]
  simp only [max_self]
  apply Finset.sum_eq_zero
  intro i _
  apply Finset.sum_eq_zero
  intro j _
  rw [errVal_self]
  · ring
  · exact div_nonneg (Real.sqrt_nonneg _) (by norm_num)

/-- A plane compared against itself yields squared-error accumulator
exactly 0 whenever at least one block fits. -/
theorem calculate_plane_psnr_hvs_self (p : ℕ → ℤ)
    (w h stride plane_idx bit_depth : ℕ) (hw : 8 ≤ w) (hh : 8 ≤ h) :
    PsnrHvs.calculate_plane_psnr_hvs p p w h stride plane_idx bit_depth =
      some 0 := by
  rw [PsnrHvs.calculate_plane_psnr_hvs, if_neg (by omega)]
  simp [blockResult_self, list_sum_map_zero, zero_div]

/-- With both input planes identical, the horizontal moments coincide
componentwise. -/
theorem horizMoments_self (p : ℕ → ℤ) (w : ℕ) (hk : List ℤ) (y x : ℕ) :
    (Ssim.horizMoments p p w hk y x).muy = (Ssim.horizMoments p p w hk y x).mux ∧
    (Ssim.horizMoments p p w hk y x).xy = (Ssim.horizMoments p p w hk y x).x2 ∧
    (Ssim.horizMoments p p w hk y x).y2 = (Ssim.horizMoments p p w hk y x).x2 :=
  ⟨rfl, rfl, rfl⟩

/-- With both input planes identical, the combined window moments coincide
componentwise. -/
theorem windowMoments_self (p : ℕ → ℤ) (w h : ℕ) (vk hk : List ℤ) (y x : ℕ) :
    (Ssim.windowMoments p p w h vk hk y x).muy =
      (Ssim.windowMoments p p w h vk hk y x).mux ∧
    (Ssim.windowMoments p p w h vk hk y x).xy =
      (Ssim.windowMoments p p w h vk hk y x).x2 ∧
    (Ssim.windowMoments p p w h vk hk y x).y2 =
      (Ssim.windowMoments p p w h vk hk y x).x2 := by
  refine ⟨?_, ?_, ?_⟩
  · simp only [Ssim.windowMoments]
    exact Finset.sum_congr rfl fun k _ => by
      rw [(horizMoments_self p w hk _ x).1]
  · simp only [Ssim.windowMoments]
    exact Finset.sum_congr rfl fun k _ => by
      rw [(horizMoments_self p w hk _ x).2.1]
  · simp only [Ssim.windowMoments]
    exact Finset.sum_congr rfl fun k _ => by
      rw [(horizMoments_self p w hk _ x).2.2]

/-- For self-identical window moments with positive accumulated weight,
positive sample max and the second-moment (Cauchy–Schwarz) inequality, both
the contrast-structure term and the full SSIM term equal the window's own
weight, i.e. the normalized per-window score is exactly 1. -/
theorem windowTerm_self (m : Ssim.SsimMoments) (sm : ℕ)
    (hmuy : m.muy = m.mux) (hxy : m.xy = m.x2) (hy2 : m.y2 = m.x2)
    (hw : 0 < m.w) (hsm : 0 < sm) (hcs : m.mux ^ 2 ≤ m.x2 * m.w) :
    Ssim.windowCs m sm = (m.w : ℝ) ∧
    Ssim.windowSsimTerm m sm = (m.w : ℝ) := by
  have hwR : (0 : ℝ) < (m.w : ℝ) := by exact_mod_cast hw
  have hA : (0 : ℝ) ≤ (m.x2 : ℝ) * (m.w : ℝ) - (m.mux : ℝ) ^ 2 := by
    have hc : ((m.mux ^ 2 : ℤ) : ℝ) ≤ ((m.x2 * m.w : ℤ) : ℝ) := by
      exact_mod_cast hcs
    push_cast at hc
    linarith
  have hsmR : (0 : ℝ) < ((sm ^ 2 : ℕ) : ℝ) := by
    have : 0 < sm ^ 2 := pow_pos hsm 2
    exact_mod_cast this
  have hc2 : 0 < ((sm ^ 2 : ℕ) : ℝ) * Ssim.SSIM_K2 * (m.w : ℝ) ^ 2 := by
    apply mul_pos (mul_pos hsmR (by norm_num [Ssim.SSIM_K2]))
    positivity
  have hc1 : 0 < ((sm ^ 2 : ℕ) : ℝ) * Ssim.SSIM_K1 * (m.w : ℝ) ^ 2 := by
    apply mul_pos (mul_pos hsmR (by norm_num [Ssim.SSIM_K1]))
    positivity
  have hcseq : Ssim.windowCs m sm = (m.w : ℝ) := by
    rw [Ssim.windowCs]
    simp only [hmuy, hxy, hy2]
    rw [div_eq_iff (by linarith)]
    ring
  refine ⟨hcseq, ?_⟩
  rw [Ssim.windowSsimTerm, hcseq]
  simp only [hmuy]
  rw [div_eq_iff (by nlinarith [sq_nonneg ((m.mux : ℝ))])]
  ring

/-- C2 counterexample: on an 8-wide, 7-tall plane compared against itself no
8×8 block fits, `result /= pixels` divides `0.0` by `0` (NaN), and
`calculate_plane_psnr_hvs` does not return the value 0.0. -/
theorem spec_C2_cex :
    ¬ (PsnrHvs.calculate_plane_psnr_hvs (fun _ => 0) (fun _ => 0) 8 7 8 0 8 =
      some 0) := by
  rw [PsnrHvs.calculate_plane_psnr_hvs, if_pos (by norm_num)]
  simp

/-- C2 (amended): for a plane compared against itself, the PSNR-HVS
squared-error accumulator is exactly 0.0 whenever at least one 8×8 block
fits (width and height at least 8; smaller planes yield NaN or panic) and
none of the visited blocks' `i32`-wrapped DCT coefficient squares is
negative — then every masking sqrt argument the program computes is
nonnegative, so the program's `f64` arithmetic stays NaN-free and agrees
with the real-valued model (the no-wrap condition holds throughout the
8-bit regime; 16-bit content can wrap a square negative, making the
program's masking energy NaN and its result NaN rather than 0).  And every
per-window SSIM term equals the window's accumulated kernel weight — a
normalized per-window score of exactly 1.0 — whenever that weight is
positive, the sample maximum is positive, and the moments satisfy the
second-moment inequality `(Σx)² ≤ Σx²·W` (automatic for nonnegative kernel
coefficients). -/
theorem spec_C2 :
    (∀ (p : ℕ → ℤ) (w h stride plane_idx bit_depth : ℕ), 8 ≤ w → 8 ≤ h →
      (∀ y ∈ PsnrHvs.blockStarts h, ∀ x ∈ PsnrHvs.blockStarts w,
        ∀ i j : Fin 8,
        0 ≤ PsnrHvs.wrap32
          (PsnrHvs.od_bin_fdct8x8 (PsnrHvs.blockOf p stride x y) i j ^ 2)) →
      (∀ y ∈ PsnrHvs.blockStarts h, ∀ x ∈ PsnrHvs.blockStarts w,
        0 ≤ PsnrHvs.maskSum
            (PsnrHvs.od_bin_fdct8x8 (PsnrHvs.blockOf p stride x y))
            (PsnrHvs.csfFor plane_idx) *
          PsnrHvs.blockVarQuot (PsnrHvs.blockOf p stride x y)) ∧
      PsnrHvs.calculate_plane_psnr_hvs p p w h stride plane_idx bit_depth =
        some 0) ∧
    (∀ (p : ℕ → ℤ) (width height : ℕ) (vk hk : List ℤ) (sm y x : ℕ),
      0 < (Ssim.windowMoments p p width height vk hk y x).w → 0 < sm →
      (Ssim.windowMoments p p width height vk hk y x).mux ^ 2 ≤
        (Ssim.windowMoments p p width height vk hk y x).x2 *
          (Ssim.windowMoments p p width height vk hk y x).w →
      Ssim.windowSsimTerm (Ssim.windowMoments p p width height vk hk y x) sm =
        ((Ssim.windowMoments p p width height vk hk y x).w : ℝ)) := by
  constructor
  · intro p w h stride plane_idx bit_depth hw hh hmask
    refine ⟨?_, calculate_plane_psnr_hvs_self p w h stride plane_idx
      bit_depth hw hh⟩
    intro y hy x hx
    exact mul_nonneg
      (maskSum_nonneg _ _ fun i j => hmask y hy x hx i j)
      (blockVarQuot_nonneg _)
  · intro p width height vk hk sm y x hw hsm hcs
    exact (windowTerm_self _ sm
      (windowMoments_self p width height vk hk y x).1
      (windowMoments_self p width height vk hk y x).2.1
      (windowMoments_self p width height vk hk y x).2.2 hw hsm hcs).2

/-- Witness for C2 at concrete self-identical inputs (the all-zero 8×8
plane: its single block's DCT is identically zero, so the no-wrap
hypothesis evaluates by `decide`). -/
theorem spec_C2_witness :
    ((∀ y ∈ PsnrHvs.blockStarts 8, ∀ x ∈ PsnrHvs.blockStarts 8,
        0 ≤ PsnrHvs.maskSum
            (PsnrHvs.od_bin_fdct8x8 (PsnrHvs.blockOf (fun _ => 0) 8 x y))
            (PsnrHvs.csfFor 0) *
          PsnrHvs.blockVarQuot (PsnrHvs.blockOf (fun _ => 0) 8 x y)) ∧
      PsnrHvs.calculate_plane_psnr_hvs (fun _ => 0) (fun _ => 0) 8 8 8 0 8 =
        some 0) ∧
    Ssim.windowSsimTerm
        (Ssim.windowMoments (fun _ => 0) (fun _ => 0) 1 1 [1] [1] 0 0) 1 =
      ((Ssim.windowMoments (fun _ => 0) (fun _ => 0) 1 1 [1] [1] 0 0).w : ℝ) :=
  ⟨spec_C2.1 (fun _ => 0) 8 8 8 0 8 (by norm_num) (by norm_num)
      (by set_option maxRecDepth 100000 in decide),
    spec_C2.2 (fun _ => 0) 1 1 [1] [1] 1 0 0 (by decide) (by decide)
      (by decide)⟩

/-- C5: MS-SSIM runs the windowed SSIM computation at 5 scales, each
downscale step being the clamped 2×2 sum with sample-max multiplied by 4,
and returns the product of the `cs` means of scales 0..3 and the SSIM mean
of scale 4 raised to the fixed MS_WEIGHT exponents
`[0.0448, 0.2856, 0.3001, 0.2363, 0.1333]` without renormalization; each
downscaled sample is the 2×2 **sum** (not average) of input samples with
the second row/column index clamped to the last valid index. -/
theorem spec_C5 :
    (∀ (p1 p2 : List ℤ) (width height bit_depth : ℕ),
      Ssim.calculate_plane_msssim p1 p2 width height bit_depth =
        (Ssim.calculate_plane_ssim_internal (Ssim.listToPlane p1)
            (Ssim.listToPlane p2) width height (2 ^ bit_depth - 1)
            (Ssim.build_gaussian_kernel_core 1.5 5 1024)
            (Ssim.build_gaussian_kernel_core 1.5 5 1024)).2 ^ (0.0448 : ℝ) *
        (Ssim.calculate_plane_ssim_internal
            (Ssim.listToPlane (Ssim.msssim_downscale p1 width height))
            (Ssim.listToPlane (Ssim.msssim_downscale p2 width height))
            (width / 2) (height / 2) ((2 ^ bit_depth - 1) * 4)
            (Ssim.build_gaussian_kernel_core 1.5 5 1024)
            (Ssim.build_gaussian_kernel_core 1.5 5 1024)).2 ^ (0.2856 : ℝ) *
        (Ssim.calculate_plane_ssim_internal
            (Ssim.listToPlane (Ssim.msssim_downscale
              (Ssim.msssim_downscale p1 width height) (width / 2) (height / 2)))
            (Ssim.listToPlane (Ssim.msssim_downscale
              (Ssim.msssim_downscale p2 width height) (width / 2) (height / 2)))
            (width / 2 / 2) (height / 2 / 2) ((2 ^ bit_depth - 1) * 4 * 4)
            (Ssim.build_gaussian_kernel_core 1.5 5 1024)
            (Ssim.build_gaussian_kernel_core 1.5 5 1024)).2 ^ (0.3001 : ℝ) *
        (Ssim.calculate_plane_ssim_internal
            (Ssim.listToPlane (Ssim.msssim_downscale (Ssim.msssim_downscale
              (Ssim.msssim_downscale p1 width height) (width / 2) (height / 2))
              (width / 2 / 2) (height / 2 / 2)))
            (Ssim.listToPlane (Ssim.msssim_downscale (Ssim.msssim_downscale
              (Ssim.msssim_downscale p2 width height) (width / 2) (height / 2))
              (width / 2 / 2) (height / 2 / 2)))
            (width / 2 / 2 / 2) (height / 2 / 2 / 2)
            ((2 ^ bit_depth - 1) * 4 * 4 * 4)
            (Ssim.build_gaussian_kernel_core 1.5 5 1024)
            (Ssim.build_gaussian_kernel_core 1.5 5 1024)).2 ^ (0.2363 : ℝ) *
        (Ssim.calculate_plane_ssim_internal
            (Ssim.listToPlane (Ssim.msssim_downscale (Ssim.msssim_downscale
              (Ssim.msssim_downscale (Ssim.msssim_downscale p1 width height)
                (width / 2) (height / 2)) (width / 2 / 2) (height / 2 / 2))
              (width / 2 / 2 / 2) (height / 2 / 2 / 2)))
            (Ssim.listToPlane (Ssim.msssim_downscale (Ssim.msssim_downscale
              (Ssim.msssim_downscale (Ssim.msssim_downscale p2 width height)
                (width / 2) (height / 2)) (width / 2 / 2) (height / 2 / 2))
              (width / 2 / 2 / 2) (height / 2 / 2 / 2)))
            (width / 2 / 2 / 2 / 2) (height / 2 / 2 / 2 / 2)
            ((2 ^ bit_depth - 1) * 4 * 4 * 4 * 4)
            (Ssim.build_gaussian_kernel_core 1.5 5 1024)
            (Ssim.build_gaussian_kernel_core 1.5 5 1024)).1 ^ (0.1333 : ℝ)) ∧
    (∀ (input : List ℤ) (iw ih j i : ℕ), j < ih / 2 → i < iw / 2 →
      (Ssim.msssim_downscale input iw ih).getD (j * (iw / 2) + i) 0 =
        input.getD (2 * j * iw + 2 * i) 0 +
        input.getD (2 * j * iw + min (2 * i + 1) (iw - 1)) 0 +
        input.getD (min (2 * j + 1) (ih - 1) * iw + 2 * i) 0 +
        input.getD (min (2 * j + 1) (ih - 1) * iw + min (2 * i + 1) (iw - 1)) 0) := by
  constructor
  · intro p1 p2 width height bit_depth
    simp only [Ssim.calculate_plane_msssim]
    rw [one_mul]
    rfl
  · intro input iw ih j i hj hi
    have h0 : 0 < iw / 2 := by omega
    have hidx : j * (iw / 2) + i < iw / 2 * (ih / 2) := by
      calc j * (iw / 2) + i < j * (iw / 2) + iw / 2 := by omega
        _ = (j + 1) * (iw / 2) := by ring
        _ ≤ ih / 2 * (iw / 2) := Nat.mul_le_mul_right _ (by omega)
        _ = iw / 2 * (ih / 2) := by ring
    have hdiv : (j * (iw / 2) + i) / (iw / 2) = j := by
      rw [Nat.mul_comm, Nat.mul_add_div h0, Nat.div_eq_of_lt hi, Nat.add_zero]
    have hmod : (j * (iw / 2) + i) % (iw / 2) = i := by
      rw [Nat.mul_comm j (iw / 2), Nat.mul_add_mod, Nat.mod_eq_of_lt hi]
    simp only [Ssim.msssim_downscale]
    rw [getD_range_map _ _ _ hidx, hdiv, hmod]

/-- Witness for C5's downscale characterization at a concrete 2×2 input. -/
theorem spec_C5_witness :
    (Ssim.msssim_downscale [1, 2, 3, 4] 2 2).getD (0 * (2 / 2) + 0) 0 =
      ([1, 2, 3, 4] : List ℤ).getD (2 * 0 * 2 + 2 * 0) 0 +
      ([1, 2, 3, 4] : List ℤ).getD (2 * 0 * 2 + min (2 * 0 + 1) (2 - 1)) 0 +
      ([1, 2, 3, 4] : List ℤ).getD (min (2 * 0 + 1) (2 - 1) * 2 + 2 * 0) 0 +
      ([1, 2, 3, 4] : List ℤ).getD
        (min (2 * 0 + 1) (2 - 1) * 2 + min (2 * 0 + 1) (2 - 1)) 0 :=
  spec_C5.2 [1, 2, 3, 4] 2 2 0 0 (by norm_num) (by norm_num)
